import Mathlib

/-!
Shallow embedding of `src/k0.cc` (namespace `k0::core`): a minimal
register-based bytecode interpreter with basic blocks, a call stack of
frames, and frame-owned heap allocations.

Modelling conventions:
* `std::map<int64_t, T>` becomes an association list `List (Int × T)` with
  `lookupA` (find), `setA` (`operator[]` assignment / insert-or-assign) and
  `insertA` (`std::map::insert`, which does nothing when the key exists).
* Raw pointers become abstract integer addresses: `Function *` values are
  keys into `Machine.funcs`, `malloc` results are keys into the `Heap` model.
* `std::cerr` output of DEBUG is collected in `Machine.output`.
* Assertion failures (`assert(...)`) are the `StepResult.fault` outcome;
  operations whose behavior the C++ standard leaves undefined (out-of-bounds
  `std::vector::operator[]`, wild pointer dereference) are the separate
  `StepResult.ub` outcome, carrying the state at the point where defined
  behavior ends.
-/

set_option linter.unusedVariables false

namespace k0

-- Values of `enum OP` in the source; the instruction field `op` is a
-- `uint8_t`, so opcodes are plain numbers and any value outside the enum
-- falls into the `default` branch of the dispatch switch.
namespace OP

@[simp] def ALLOCA : Nat := 0

@[simp] def IMM : Nat := 1

@[simp] def ADD : Nat := 2

@[simp] def CMP : Nat := 3

@[simp] def BR : Nat := 4

@[simp] def CALL : Nat := 5

@[simp] def RET : Nat := 6

@[simp] def COPY : Nat := 7

@[simp] def LOAD : Nat := 8

@[simp] def STORE : Nat := 9

@[simp] def DEBUG : Nat := 10

end OP

-- Values of `enum COND`: `LT = -1, EQ = 0, GT = 1`.
namespace COND

@[simp] def LT : Int := -1

@[simp] def EQ : Int := 0

@[simp] def GT : Int := 1

end COND

/-- Source `struct Instruction`: an opcode tag plus an ordered operand list. -/
structure Instruction where
  op : Nat
  operand : List Int

/-- Source `Instruction::get`: `operand[i]`. Out-of-range access through
`std::vector::operator[]` is undefined behavior in the source; the model
returns `0` there, and no theorem below executes an instruction with too few
operands. -/
def Instruction.get (i : Instruction) (n : Nat) : Int :=
  i.operand.getD n 0

/-- Source `struct BasicBlock`. -/
structure BasicBlock where
  body_ : List Instruction

/-- Source `struct Function`: name, entry block id, and the block-id map
`std::map<int64_t, BasicBlock> basic_blocks_`. -/
structure Function where
  name_ : String
  entry_ : Int
  basic_blocks_ : List (Int × BasicBlock)

/-- Source `Function::entry`. -/
def Function.entry (f : Function) : Int := f.entry_

/-- Source `struct PC`. The `Function *f` pointer is modelled as an integer
address keying `Machine.funcs`. `ii` is the `size_t` instruction index. -/
structure PC where
  f : Int
  ib : Int
  ii : Nat

/-- Source `struct Alloca`: a heap block; `base = 0` models the null pointer. -/
structure Alloca where
  base : Int
  size : Int

/-- Source `struct FunctionContext` (one call frame): owned allocations,
register file, and the frame's program counter. -/
structure FunctionContext where
  allocas : List (Int × Alloca)
  values : List (Int × Int)
  pc : PC

/-- Lookup in the association-list model of `std::map<int64_t, T>`. -/
def lookupA {α : Type} : List (Int × α) → Int → Option α
  | [], _ => none
  | p :: rest, key => if key = p.1 then some p.2 else lookupA rest key

/-- Assignment through `std::map::operator[]` (insert-or-assign). -/
def setA {α : Type} : List (Int × α) → Int → α → List (Int × α)
  | [], key, v => [(key, v)]
  | p :: rest, key, v => if key = p.1 then (key, v) :: rest else p :: setA rest key v

/-- Model of `std::map::insert`: no effect when the key is already present. -/
def insertA {α : Type} (m : List (Int × α)) (key : Int) (v : α) : List (Int × α) :=
  match lookupA m key with
  | some _ => m
  | none => setA m key v

/-- Model of the C heap the interpreter allocates from. Addresses are
abstract: `malloc` hands out strictly increasing nonzero addresses and
records the live block, `free` retires it. `mem` holds the 8-byte cells the
STORE instruction has written. -/
structure Heap where
  nextAddr : Int
  live : List (Int × Int)
  mem : List (Int × Int)

/-- Model of `malloc(sz)`: returns a fresh nonzero address and records the
block as live. Allocator exhaustion (a fatal condition per the source) is not
modelled: allocation always succeeds. -/
def Heap.malloc (h : Heap) (sz : Int) : Int × Heap :=
  (h.nextAddr,
   { h with nextAddr := h.nextAddr + max sz 1, live := (h.nextAddr, sz) :: h.live })

/-- Model of `free(base)`: the block at `base` is no longer live. -/
def Heap.free (h : Heap) (a : Int) : Heap :=
  { h with live := h.live.filter (fun p => decide (p.1 ≠ a)) }

/-- Source `~Alloca`: `if (base) free(base);`. -/
def Heap.freeAlloca (h : Heap) (a : Alloca) : Heap :=
  if a.base ≠ 0 then h.free a.base else h

/-- Frame teardown (`~FunctionContext`): destroys every owned `Alloca`,
each destructor freeing its block. -/
def Heap.freeAll (h : Heap) (as : List (Int × Alloca)) : Heap :=
  as.foldl (fun acc p => acc.freeAlloca p.2) h

/-- An address is backed by live allocated memory for an 8-byte access. -/
def Heap.validFor (h : Heap) (addr : Int) : Bool :=
  h.live.any (fun p => decide (p.1 ≤ addr) && decide (addr + 8 ≤ p.1 + p.2))

/-- Model of the raw read `*(int64_t *)addr` performed by LOAD: defined only
inside a live allocation at a cell STORE has initialized; everything else
(wild pointer, freed block, uninitialized memory) is undefined behavior in
the source, signalled by `none`. -/
def Heap.read (h : Heap) (addr : Int) : Option Int :=
  if h.validFor addr then lookupA h.mem addr else none

/-- Model of the raw write `*(int64_t *)addr = v` performed by STORE; `none`
when the address is not backed by a live allocation (undefined behavior). -/
def Heap.write (h : Heap) (addr : Int) (v : Int) : Option Heap :=
  if h.validFor addr then some { h with mem := setA h.mem addr v } else none

/-- Source `FunctionContext::Assign`: `values[reg] = val` - binds
unconditionally, creating the register on first use. -/
def FunctionContext.Assign (ctx : FunctionContext) (reg val : Int) : FunctionContext :=
  { ctx with values := setA ctx.values reg val }

/-- Source `FunctionContext::GetVal`: `return values[reg];`. Because
`std::map::operator[]` value-initializes a missing key, reading a never-bound
register yields `0` and, as a side effect, inserts the binding `reg ↦ 0`
into the register map. The updated frame is returned alongside the value. -/
def FunctionContext.GetVal (ctx : FunctionContext) (reg : Int) : Int × FunctionContext :=
  match lookupA ctx.values reg with
  | some v => (v, ctx)
  | none => (0, { ctx with values := setA ctx.values reg 0 })

/-- Source `FunctionContext::Allocate`: malloc a block, bind the register to
its address, then `allocas.insert({reg, ...})`. `std::map::insert` rejects a
duplicate key, in which case the rejected `std::unique_ptr<Alloca>` is
destroyed at the end of the statement, freeing the block that was just
allocated; the ownership map keeps the old entry. -/
def FunctionContext.Allocate (ctx : FunctionContext) (h : Heap) (reg sz : Int) :
    FunctionContext × Heap :=
  let base := (h.malloc sz).1
  let h1 := (h.malloc sz).2
  let ctx1 := ctx.Assign reg base
  match lookupA ctx.allocas reg with
  | none => ({ ctx1 with allocas := insertA ctx1.allocas reg ⟨base, sz⟩ }, h1)
  | some _ => (ctx1, h1.free base)

/-- State of `ExecutionEngine` plus the memory it executes over: the call
stack (`stack_`, with the vector's back, i.e. the active frame, at the head
of the list), the functions reachable through `Function *` addresses, the
heap, and everything DEBUG has printed to `std::cerr`. -/
structure Machine where
  stack_ : List FunctionContext
  funcs : List (Int × Function)
  heap : Heap
  output : List Int

/-- The two assertion failures the interpreter can raise. -/
inductive Fault
  | unresolvedFunction
  | unsupportedOpcode

/-- Places where the source reaches behavior the C++ standard leaves
undefined; the model stops there because the source has no defined meaning
beyond that point. -/
inductive UB
  | badFunctionPtr
  | fetchFromMissingBlock
  | fetchPastEnd
  | badCallTarget
  | memAccess

/-- Outcome of executing one instruction. -/
inductive StepResult
  | ok (m : Machine)
  | fault (f : Fault) (m : Machine)
  | ub (u : UB) (m : Machine)

/-- The `pc.ii++` performed by the instruction fetch. -/
def FunctionContext.advance (ctx : FunctionContext) : FunctionContext :=
  { ctx with pc := { ctx.pc with ii := ctx.pc.ii + 1 } }

/-- The three-way comparison computed by CMP:
`op0 == op1 ? EQ : (op0 < op1 ? LT : GT)`. -/
def cmpFlag (a b : Int) : Int :=
  if a = b then COND.EQ else if a < b then COND.LT else COND.GT

/-- Two's-complement wraparound of `int64_t` addition, the behavior of the
interpreter's `op0_val + op1_val` on its 64-bit two's-complement targets. -/
def wrap64 (x : Int) : Int := (x + 2 ^ 63) % 2 ^ 64 - 2 ^ 63

/-- The `switch (i.op)` body of `ExecutionEngine::ExecuteInstruction`.
`ctx` is the active frame with `pc.ii` already incremented by the fetch, and
`m.stack_ = ctx :: rest`. Cases appear in source order. -/
def dispatch (m : Machine) (ctx : FunctionContext) (rest : List FunctionContext)
    (i : Instruction) : StepResult :=
  if i.op = OP.ALLOCA then
    let r := ctx.Allocate m.heap (i.get 0) (i.get 1)
    .ok { m with stack_ := r.1 :: rest, heap := r.2 }
  else if i.op = OP.IMM then
    .ok { m with stack_ := ctx.Assign (i.get 0) (i.get 1) :: rest }
  else if i.op = OP.ADD then
    let r0 := ctx.GetVal (i.get 1)
    let r1 := r0.2.GetVal (i.get 2)
    .ok { m with stack_ := r1.2.Assign (i.get 0) (wrap64 (r0.1 + r1.1)) :: rest }
  else if i.op = OP.CMP then
    let r0 := ctx.GetVal (i.get 2)
    let r1 := r0.2.GetVal (i.get 3)
    .ok { m with stack_ :=
      r1.2.Assign (i.get 0) (if cmpFlag r0.1 r1.1 = i.get 1 then 1 else 0) :: rest }
  else if i.op = OP.COPY then
    let r := ctx.GetVal (i.get 1)
    .ok { m with stack_ := r.2.Assign (i.get 0) r.1 :: rest }
  else if i.op = OP.LOAD then
    let r := ctx.GetVal (i.get 1)
    match m.heap.read r.1 with
    | some v => .ok { m with stack_ := r.2.Assign (i.get 0) v :: rest }
    | none => .ub .memAccess { m with stack_ := r.2 :: rest }
  else if i.op = OP.STORE then
    let ra := ctx.GetVal (i.get 1)
    let rv := ra.2.GetVal (i.get 0)
    match m.heap.write ra.1 rv.1 with
    | some h1 => .ok { m with stack_ := rv.2 :: rest, heap := h1 }
    | none => .ub .memAccess { m with stack_ := rv.2 :: rest }
  else if i.op = OP.BR then
    let r := ctx.GetVal (i.get 0)
    let pc1 : PC := { (r.2.pc) with ii := 0, ib := if r.1 ≠ 0 then i.get 1 else i.get 2 }
    .ok { m with stack_ := { (r.2) with pc := pc1 } :: rest }
  else if i.op = OP.CALL then
    if i.get 0 = 0 then
      .fault .unresolvedFunction m
    else
      match lookupA m.funcs (i.get 0) with
      | none => .ub .badCallTarget m
      | some f =>
          .ok { m with stack_ :=
            { allocas := [], values := [],
              pc := { f := i.get 0, ib := f.entry, ii := 0 } } :: ctx :: rest }
  else if i.op = OP.RET then
    .ok { m with stack_ := rest, heap := m.heap.freeAll ctx.allocas }
  else if i.op = OP.DEBUG then
    let r := ctx.GetVal (i.get 0)
    .ok { m with stack_ := r.2 :: rest, output := m.output ++ [r.1] }
  else
    .fault .unsupportedOpcode m

/-- Source `ExecutionEngine::ExecuteInstruction`: fetch
`pc.f->basic_blocks_[pc.ib].body_[pc.ii++]` from the active frame and
dispatch on the opcode. The `Function *` is dereferenced through
`Machine.funcs`. A block id missing from `basic_blocks_` is default-inserted
as an empty block by `std::map::operator[]`, after which the `body_[ii]`
access is out of bounds - undefined behavior, as is any fetch index at or
past the end of the block body. -/
def ExecuteInstruction (m : Machine) : StepResult :=
  match m.stack_ with
  | [] => .ok m
  | ctx :: rest =>
    match lookupA m.funcs ctx.pc.f with
    | none => .ub .badFunctionPtr m
    | some fn =>
      match lookupA fn.basic_blocks_ ctx.pc.ib with
      | none =>
          .ub .fetchFromMissingBlock
            { m with stack_ := ctx.advance :: rest,
                     funcs := setA m.funcs ctx.pc.f
                       { fn with basic_blocks_ := setA fn.basic_blocks_ ctx.pc.ib ⟨[]⟩ } }
      | some bb =>
        match bb.body_.get? ctx.pc.ii with
        | none => .ub .fetchPastEnd { m with stack_ := ctx.advance :: rest }
        | some i => dispatch { m with stack_ := ctx.advance :: rest } ctx.advance rest i

/-- Result of a whole run. -/
inductive RunResult
  | finished (m : Machine)
  | faulted (f : Fault) (m : Machine)
  | undef (u : UB) (m : Machine)
  | outOfFuel (m : Machine)

/-- Source `ExecutionEngine::Execute`:
`while (!stack_.empty()) ExecuteInstruction();`, with explicit fuel so the
model is total (the source loop can run forever). -/
def Execute : Nat → Machine → RunResult
  | 0, m => .outOfFuel m
  | n + 1, m =>
    if m.stack_.isEmpty then .finished m
    else
      match ExecuteInstruction m with
      | .ok m1 => Execute n m1
      | .fault f m1 => .faulted f m1
      | .ub u m1 => .undef u m1

/-- Whether a step ended in an assertion failure. -/
def StepResult.isFault : StepResult → Bool
  | .fault _ _ => true
  | _ => false

/-- Whether a step reached undefined behavior. -/
def StepResult.isUb : StepResult → Bool
  | .ub _ _ => true
  | _ => false

/-- Whether a run terminated normally (call stack emptied). -/
def RunResult.isFinished : RunResult → Bool
  | .finished _ => true
  | _ => false

/-- Everything the run printed to the diagnostic stream, in order. -/
def RunResult.outputTrace : RunResult → List Int
  | .finished m => m.output
  | .faulted _ m => m.output
  | .undef _ m => m.output
  | .outOfFuel m => m.output

/-! Helper lemmas about the map and heap models. -/

/-- Assigning through `operator[]` makes the key read back as the value. -/
theorem lookupA_setA_self {α : Type} (l : List (Int × α)) (k : Int) (v : α) :
    lookupA (setA l k v) k = some v := by
  induction l with
  | nil => simp [setA, lookupA]
  | cons p tl ih =>
    by_cases hk : k = p.1
    · simp [setA, hk, lookupA]
    · simp [setA, hk, lookupA, ih]

/-- Freeing a base address removes it from the live set. -/
theorem free_not_mem (h : Heap) (a : Int) : a ∉ (h.free a).live.map Prod.fst := by
  intro hmem
  rcases List.mem_map.mp hmem with ⟨p, hp, hfst⟩
  rcases List.mem_filter.mp hp with ⟨_, hne⟩
  rw [decide_eq_true_eq] at hne
  exact hne hfst

/-- Freeing never adds an address to the live set. -/
theorem free_preserves_not_mem (h : Heap) (a x : Int)
    (hx : x ∉ h.live.map Prod.fst) : x ∉ (h.free a).live.map Prod.fst := by
  intro hmem
  rcases List.mem_map.mp hmem with ⟨p, hp, hfst⟩
  exact hx (List.mem_map.mpr ⟨p, (List.mem_filter.mp hp).1, hfst⟩)

/-- An `Alloca` destructor never adds an address to the live set. -/
theorem freeAlloca_preserves_not_mem (h : Heap) (a : Alloca) (x : Int)
    (hx : x ∉ h.live.map Prod.fst) : x ∉ (h.freeAlloca a).live.map Prod.fst := by
  unfold Heap.freeAlloca
  split
  · exact free_preserves_not_mem h a.base x hx
  · exact hx

/-- Destroying an `Alloca` with a non-null base removes its base from the
live set. -/
theorem freeAlloca_removes (h : Heap) (a : Alloca) (hnz : a.base ≠ 0) :
    a.base ∉ (h.freeAlloca a).live.map Prod.fst := by
  unfold Heap.freeAlloca
  rw [if_pos hnz]
  exact free_not_mem h a.base

/-- Frame teardown never adds an address to the live set. -/
theorem freeAll_preserves_not_mem (as : List (Int × Alloca)) (h : Heap) (x : Int)
    (hx : x ∉ h.live.map Prod.fst) : x ∉ (h.freeAll as).live.map Prod.fst := by
  induction as generalizing h with
  | nil => exact hx
  | cons q tl ih =>
    have hq : x ∉ (h.freeAlloca q.2).live.map Prod.fst :=
      freeAlloca_preserves_not_mem h q.2 x hx
    simpa [Heap.freeAll] using ih (h.freeAlloca q.2) hq

/-- Frame teardown removes every owned non-null allocation base from the
live set. -/
theorem freeAll_releases (as : List (Int × Alloca)) (h : Heap) :
    ∀ p ∈ as, p.2.base ≠ 0 → p.2.base ∉ (h.freeAll as).live.map Prod.fst := by
  induction as generalizing h with
  | nil => intro p hp; cases hp
  | cons q tl ih =>
    intro p hp hnzp
    have hstep : h.freeAll (q :: tl) = (h.freeAlloca q.2).freeAll tl := by
      simp [Heap.freeAll]
    rw [hstep]
    rcases List.mem_cons.mp hp with heq | htl
    · subst heq
      exact freeAll_preserves_not_mem tl (h.freeAlloca p.2) p.2.base
        (freeAlloca_removes h p.2 hnzp)
    · exact ih (h.freeAlloca q.2) p htl hnzp

/-- A successful fetch: when the active frame's pc points at an existing
instruction, `ExecuteInstruction` advances `pc.ii` and dispatches on it. -/
theorem ExecuteInstruction_fetch (m : Machine) (ctx : FunctionContext)
    (rest : List FunctionContext) (fn : Function) (bb : BasicBlock) (i : Instruction)
    (hs : m.stack_ = ctx :: rest)
    (hf : lookupA m.funcs ctx.pc.f = some fn)
    (hb : lookupA fn.basic_blocks_ ctx.pc.ib = some bb)
    (hi : bb.body_.get? ctx.pc.ii = some i) :
    ExecuteInstruction m =
      dispatch { m with stack_ := ctx.advance :: rest } ctx.advance rest i := by
  unfold ExecuteInstruction
  rw [hs]
  simp only [hf, hb, hi]

/-- Claim C3 (confirmed): executing CMP(dst, cond, a, b) binds dst to 1 when
the three-way ordering of value(a) versus value(b) (LT=-1, EQ=0, GT=1)
equals cond and to 0 otherwise; in particular, for every value bound to
register a, CMP(dst, EQ, a, a) yields 1 while CMP(dst, LT, a, a) and
CMP(dst, GT, a, a) both yield 0. -/
theorem C3_cmp_semantics (m : Machine) (ctx : FunctionContext)
    (rest : List FunctionContext) (d cond a b va vb : Int)
    (ha : lookupA ctx.values a = some va)
    (hb : lookupA ctx.values b = some vb) :
    dispatch m ctx rest ⟨OP.CMP, [d, cond, a, b]⟩ =
      .ok { m with stack_ := ctx.Assign d (if cmpFlag va vb = cond then 1 else 0) :: rest }
    ∧ dispatch m ctx rest ⟨OP.CMP, [d, COND.EQ, a, a]⟩ =
      .ok { m with stack_ := ctx.Assign d 1 :: rest }
    ∧ dispatch m ctx rest ⟨OP.CMP, [d, COND.LT, a, a]⟩ =
      .ok { m with stack_ := ctx.Assign d 0 :: rest }
    ∧ dispatch m ctx rest ⟨OP.CMP, [d, COND.GT, a, a]⟩ =
      .ok { m with stack_ := ctx.Assign d 0 :: rest } := by
  refine ⟨?_, ?_, ?_, ?_⟩ <;>
    simp [dispatch, Instruction.get, FunctionContext.GetVal, ha, hb, cmpFlag]

/-- Claim C4 (confirmed): ADD(dst, a, b) binds dst to the sum of value(a)
and value(b) wrapped to 64-bit two's complement (congruent to the exact sum
modulo 2^64 and within the int64 range) rather than trapping on overflow,
and the result is commutative in its operands. -/
theorem C4_add_wraps (m : Machine) (ctx : FunctionContext)
    (rest : List FunctionContext) (d a b va vb : Int)
    (ha : lookupA ctx.values a = some va)
    (hb : lookupA ctx.values b = some vb) :
    dispatch m ctx rest ⟨OP.ADD, [d, a, b]⟩ =
      .ok { m with stack_ := ctx.Assign d (wrap64 (va + vb)) :: rest }
    ∧ wrap64 (va + vb) = wrap64 (vb + va)
    ∧ (2 : Int) ^ 64 ∣ wrap64 (va + vb) - (va + vb)
    ∧ (-(2 : Int) ^ 63 ≤ wrap64 (va + vb) ∧ wrap64 (va + vb) < 2 ^ 63) := by
  have e63 : (2 : Int) ^ 63 = 9223372036854775808 := by norm_num
  have e64 : (2 : Int) ^ 64 = 18446744073709551616 := by norm_num
  refine ⟨?_, ?_, ?_, ?_⟩
  · simp [dispatch, Instruction.get, FunctionContext.GetVal, ha, hb]
  · rw [Int.add_comm]
  · exact ⟨-((va + vb + 2 ^ 63) / 2 ^ 64), by simp only [wrap64, Int.emod_def]; ring⟩
  · simp only [wrap64, e63, e64]
    omega

/-- Claim C5 (confirmed): BR(condReg, trueBlock, falseBlock) resets the
current frame's instruction index to 0 and sets the block id to trueBlock
when value(condReg) is non-zero and to falseBlock when it is zero. -/
theorem C5_br_semantics (m : Machine) (ctx : FunctionContext)
    (rest : List FunctionContext) (c tb fb v : Int)
    (hv : lookupA ctx.values c = some v) :
    dispatch m ctx rest ⟨OP.BR, [c, tb, fb]⟩ =
      .ok { m with stack_ :=
        { ctx with pc := { (ctx.pc) with ii := 0, ib := if v ≠ 0 then tb else fb } } :: rest } := by
  simp [dispatch, Instruction.get, FunctionContext.GetVal, hv]

/-- Claim C7 (confirmed): executing RET pops the frame and synchronously
releases every Allocation the popped frame owns: afterwards none of their
base addresses is still a live heap block. (Allocations created through
`Allocate` always have non-null bases, hypothesis `hnz`.) -/
theorem C7_ret_releases (m : Machine) (ctx : FunctionContext)
    (rest : List FunctionContext)
    (hnz : ∀ p ∈ ctx.allocas, p.2.base ≠ 0) :
    dispatch m ctx rest ⟨OP.RET, []⟩ =
      .ok { m with stack_ := rest, heap := m.heap.freeAll ctx.allocas }
    ∧ ∀ p ∈ ctx.allocas, p.2.base ∉ (m.heap.freeAll ctx.allocas).live.map Prod.fst := by
  refine ⟨by simp [dispatch], fun p hp => freeAll_releases ctx.allocas m.heap p hp (hnz p hp)⟩

/-- Claim C9 (confirmed): reading a register that is not currently bound
returns 0 and, as a side effect, inserts the binding reg to 0 into the
frame's register map; consequently even DEBUG(reg) on an unbound register
mutates the frame state by creating the binding (and prints 0). -/
theorem C9_unbound_read_defaults (m : Machine) (ctx : FunctionContext)
    (rest : List FunctionContext) (reg : Int)
    (h : lookupA ctx.values reg = none) :
    ctx.GetVal reg = (0, { ctx with values := setA ctx.values reg 0 })
    ∧ dispatch m ctx rest ⟨OP.DEBUG, [reg]⟩ =
        .ok { m with stack_ := { ctx with values := setA ctx.values reg 0 } :: rest,
                     output := m.output ++ [0] } := by
  constructor
  · simp [FunctionContext.GetVal, h]
  · simp [dispatch, Instruction.get, FunctionContext.GetVal, h]

/-- Claim C10 (confirmed): ALLOCA(reg, size) on a register the frame already
recorded an allocation under rebinds the register to the newly allocated
address, but the ownership map is unchanged: the old allocation stays
recorded under reg and the new allocation is never recorded as owned. -/
theorem C10_alloca_existing_key (m : Machine) (ctx : FunctionContext)
    (rest : List FunctionContext) (reg sz : Int) (a0 : Alloca)
    (h : lookupA ctx.allocas reg = some a0)
    (hfresh : ∀ p ∈ ctx.allocas, p.2.base ≠ m.heap.nextAddr) :
    dispatch m ctx rest ⟨OP.ALLOCA, [reg, sz]⟩ =
      .ok { m with stack_ := ctx.Assign reg m.heap.nextAddr :: rest,
                   heap := ((m.heap.malloc sz).2).free m.heap.nextAddr }
    ∧ (ctx.Assign reg m.heap.nextAddr).allocas = ctx.allocas
    ∧ lookupA (ctx.Assign reg m.heap.nextAddr).allocas reg = some a0
    ∧ lookupA (ctx.Assign reg m.heap.nextAddr).values reg = some m.heap.nextAddr
    ∧ ∀ p ∈ (ctx.Assign reg m.heap.nextAddr).allocas, p.2.base ≠ m.heap.nextAddr := by
  refine ⟨?_, rfl, h, ?_, hfresh⟩
  · simp [dispatch, Instruction.get, FunctionContext.Allocate, Heap.malloc, h]
  · exact lookupA_setA_self ctx.values reg m.heap.nextAddr

/-- A one-function program whose entry block reads the never-bound register 3
with DEBUG and then returns. -/
def C1prog : Function :=
  { name_ := "main", entry_ := 0,
    basic_blocks_ := [(0, ⟨[⟨OP.DEBUG, [3]⟩, ⟨OP.RET, []⟩]⟩)] }

/-- Initial machine for `C1prog`: one frame, empty register file. -/
def C1machine : Machine :=
  { stack_ := [{ allocas := [], values := [], pc := { f := 1, ib := 0, ii := 0 } }],
    funcs := [(1, C1prog)],
    heap := { nextAddr := 4096, live := [], mem := [] },
    output := [] }

/-- Counterexample to claim C1: the run of `C1prog` reads register 3, which
was never bound by any instruction, yet it terminates normally - no fault is
surfaced - and silently prints the default value 0. -/
theorem C1_counterexample :
    (Execute 3 C1machine).isFinished = true
    ∧ (Execute 3 C1machine).outputTrace = [0] := ⟨rfl, rfl⟩

/-- Claim C1 as amended: for every frame, reading a register that has never
been bound silently yields the default value 0 and inserts the binding
reg to 0 into the frame's register map, instead of surfacing a fault; none
of ADD, CMP, COPY, LOAD, STORE, BR, DEBUG can raise a fault from its operand
reads (the only faults are the CALL and unknown-opcode assertions). -/
theorem C1_amended_silent_defaults (m : Machine) (ctx : FunctionContext)
    (rest : List FunctionContext) (reg : Int) (i : Instruction)
    (hreg : lookupA ctx.values reg = none)
    (hop : i.op = OP.ADD ∨ i.op = OP.CMP ∨ i.op = OP.COPY ∨ i.op = OP.LOAD ∨
           i.op = OP.STORE ∨ i.op = OP.BR ∨ i.op = OP.DEBUG) :
    (ctx.GetVal reg).1 = 0
    ∧ lookupA ((ctx.GetVal reg).2).values reg = some 0
    ∧ ∀ f m1, dispatch m ctx rest i ≠ StepResult.fault f m1 := by
  refine ⟨?_, ?_, ?_⟩
  · simp [FunctionContext.GetVal, hreg]
  · simp [FunctionContext.GetVal, hreg, lookupA_setA_self]
  · intro f m1
    rcases hop with h | h | h | h | h | h | h <;>
      simp [dispatch, h] <;> (split <;> simp)

/-- A one-function program with a single block 0 holding RET. -/
def C2prog : Function :=
  { name_ := "f", entry_ := 0, basic_blocks_ := [(0, ⟨[⟨OP.RET, []⟩]⟩)] }

/-- Initial machine for `C2prog`, but with the program counter's block id set
to 5, which `C2prog.basic_blocks_` does not contain. -/
def C2machine : Machine :=
  { stack_ := [{ allocas := [], values := [], pc := { f := 1, ib := 5, ii := 0 } }],
    funcs := [(1, C2prog)],
    heap := { nextAddr := 4096, live := [], mem := [] },
    output := [] }

/-- Counterexample to claim C2: fetching at block id 5, which does not map to
an existing basic block of the current function, does not end the run with a
(defined, assertion-style) fault; the interpreter default-inserts an empty
block and performs an out-of-bounds fetch, which is undefined behavior. -/
theorem C2_counterexample :
    (ExecuteInstruction C2machine).isFault = false
    ∧ (ExecuteInstruction C2machine).isUb = true := ⟨rfl, rfl⟩

/-- Claim C2 as amended: when the program counter's block id does not map to
an existing basic block, `std::map::operator[]` default-inserts an empty
block under that id (mutating the function), and the instruction fetch from
the empty body is an out-of-bounds access - undefined behavior, not a
defined fault of the run. -/
theorem C2_missing_block_is_ub (m : Machine) (ctx : FunctionContext)
    (rest : List FunctionContext) (fn : Function)
    (hs : m.stack_ = ctx :: rest)
    (hf : lookupA m.funcs ctx.pc.f = some fn)
    (hb : lookupA fn.basic_blocks_ ctx.pc.ib = none) :
    ExecuteInstruction m =
      StepResult.ub UB.fetchFromMissingBlock
        { m with stack_ := ctx.advance :: rest,
                 funcs := setA m.funcs ctx.pc.f
                   { fn with basic_blocks_ := setA fn.basic_blocks_ ctx.pc.ib ⟨[]⟩ } }
    ∧ ∀ f m1, ExecuteInstruction m ≠ StepResult.fault f m1 := by
  have h1 : ExecuteInstruction m =
      StepResult.ub UB.fetchFromMissingBlock
        { m with stack_ := ctx.advance :: rest,
                 funcs := setA m.funcs ctx.pc.f
                   { fn with basic_blocks_ := setA fn.basic_blocks_ ctx.pc.ib ⟨[]⟩ } } := by
    unfold ExecuteInstruction
    rw [hs]
    simp only [hf, hb]
  refine ⟨h1, ?_⟩
  intro f m1 hcontra
  rw [h1] at hcontra
  exact StepResult.noConfusion hcontra

/-- Claim C6 (confirmed): a CALL immediately followed by the callee's RET
(the callee executing no other instruction) leaves the caller frame's
register map and set of owned allocations exactly as they were before the
CALL - only the caller's instruction index has advanced past the CALL - and
the callee runs in a fresh frame with an empty register file and no
allocations, so registers are never shared across frames. -/
theorem C6_call_ret_isolation (m : Machine) (ctx : FunctionContext)
    (rest : List FunctionContext) (fn g : Function) (bb gbb : BasicBlock)
    (i iret : Instruction)
    (hs : m.stack_ = ctx :: rest)
    (hf : lookupA m.funcs ctx.pc.f = some fn)
    (hb : lookupA fn.basic_blocks_ ctx.pc.ib = some bb)
    (hi : bb.body_.get? ctx.pc.ii = some i)
    (hop : i.op = OP.CALL)
    (hnz : i.get 0 ≠ 0)
    (hg : lookupA m.funcs (i.get 0) = some g)
    (hgb : lookupA g.basic_blocks_ g.entry = some gbb)
    (hgr : gbb.body_.get? 0 = some iret)
    (hrop : iret.op = OP.RET) :
    ExecuteInstruction m =
      StepResult.ok { m with stack_ :=
        ({ allocas := [], values := [],
           pc := { f := i.get 0, ib := g.entry, ii := 0 } } : FunctionContext)
          :: ctx.advance :: rest }
    ∧ ExecuteInstruction { m with stack_ :=
        ({ allocas := [], values := [],
           pc := { f := i.get 0, ib := g.entry, ii := 0 } } : FunctionContext)
          :: ctx.advance :: rest } =
      StepResult.ok { m with stack_ := ctx.advance :: rest }
    ∧ (ctx.advance).values = ctx.values
    ∧ (ctx.advance).allocas = ctx.allocas := by
  have hstep1 := ExecuteInstruction_fetch m ctx rest fn bb i hs hf hb hi
  have hcall : ExecuteInstruction m =
      StepResult.ok { m with stack_ :=
        ({ allocas := [], values := [],
           pc := { f := i.get 0, ib := g.entry, ii := 0 } } : FunctionContext)
          :: ctx.advance :: rest } := by
    rw [hstep1]
    simp [dispatch, hop, hnz, hg, Function.entry]
  have hret : ExecuteInstruction { m with stack_ :=
      ({ allocas := [], values := [],
         pc := { f := i.get 0, ib := g.entry, ii := 0 } } : FunctionContext)
        :: ctx.advance :: rest } =
      StepResult.ok { m with stack_ := ctx.advance :: rest } := by
    rw [ExecuteInstruction_fetch _ _ (ctx.advance :: rest) g gbb iret rfl hg hgb hgr]
    simp [dispatch, hrop, Heap.freeAll, FunctionContext.advance]
  exact ⟨hcall, hret, rfl, rfl⟩

/-- Claim C8 (confirmed): an instruction with an unknown opcode, or a CALL
whose function reference is null (the unresolved reference the source's
assert detects), raises an assertion fault that aborts the whole run
immediately; the aborted run's output is exactly the output from before the
faulting instruction, so no DEBUG output is emitted after it. -/
theorem C8_fault_aborts (m : Machine) (ctx : FunctionContext)
    (rest : List FunctionContext) (fn : Function) (bb : BasicBlock) (i : Instruction)
    (hs : m.stack_ = ctx :: rest)
    (hf : lookupA m.funcs ctx.pc.f = some fn)
    (hb : lookupA fn.basic_blocks_ ctx.pc.ib = some bb)
    (hi : bb.body_.get? ctx.pc.ii = some i)
    (hbad : 10 < i.op ∨ (i.op = OP.CALL ∧ i.get 0 = 0)) :
    ∃ f, ExecuteInstruction m =
        StepResult.fault f { m with stack_ := ctx.advance :: rest }
      ∧ (∀ n, Execute (n + 1) m =
          RunResult.faulted f { m with stack_ := ctx.advance :: rest })
      ∧ ({ m with stack_ := ctx.advance :: rest } : Machine).output = m.output := by
  have hstep := ExecuteInstruction_fetch m ctx rest fn bb i hs hf hb hi
  rcases hbad with hgt | ⟨hcall, h0⟩
  · have hd : ExecuteInstruction m =
        StepResult.fault Fault.unsupportedOpcode { m with stack_ := ctx.advance :: rest } := by
      rw [hstep]
      unfold dispatch
      rw [if_neg (by simp only [OP.ALLOCA]; omega),
          if_neg (by simp only [OP.IMM]; omega),
          if_neg (by simp only [OP.ADD]; omega),
          if_neg (by simp only [OP.CMP]; omega),
          if_neg (by simp only [OP.COPY]; omega),
          if_neg (by simp only [OP.LOAD]; omega),
          if_neg (by simp only [OP.STORE]; omega),
          if_neg (by simp only [OP.BR]; omega),
          if_neg (by simp only [OP.CALL]; omega),
          if_neg (by simp only [OP.RET]; omega),
          if_neg (by simp only [OP.DEBUG]; omega)]
    exact ⟨Fault.unsupportedOpcode, hd, fun n => by simp [Execute, hs, hd], rfl⟩
  · have hd : ExecuteInstruction m =
        StepResult.fault Fault.unresolvedFunction { m with stack_ := ctx.advance :: rest } := by
      rw [hstep]
      simp [dispatch, hcall, h0]
    exact ⟨Fault.unresolvedFunction, hd, fun n => by simp [Execute, hs, hd], rfl⟩

/-! Concrete states used by the witnesses below. -/

/-- Concrete frame binding register 1 to 5 and register 2 to 7. -/
def Wctx : FunctionContext :=
  { allocas := [], values := [(1, 5), (2, 7)], pc := { f := 1, ib := 0, ii := 0 } }

/-- Concrete machine wrapping `Wctx`. -/
def Wm : Machine :=
  { stack_ := [Wctx], funcs := [],
    heap := { nextAddr := 4096, live := [], mem := [] }, output := [] }

/-- Concrete frame binding register 1 to the largest int64 and register 2
to 1, for the overflow witness. -/
def W4ctx : FunctionContext :=
  { allocas := [], values := [(1, 9223372036854775807), (2, 1)],
    pc := { f := 1, ib := 0, ii := 0 } }

/-- Concrete frame owning one allocation, recorded under register 9. -/
def W7ctx : FunctionContext :=
  { allocas := [(9, { base := 4096, size := 16 })], values := [(9, 4096)],
    pc := { f := 1, ib := 0, ii := 1 } }

/-- Concrete machine whose heap holds the live block owned by `W7ctx`. -/
def W7m : Machine :=
  { stack_ := [W7ctx], funcs := [],
    heap := { nextAddr := 4112, live := [(4096, 16)], mem := [] }, output := [] }

/-- Concrete frame with an empty register file. -/
def W9ctx : FunctionContext :=
  { allocas := [], values := [], pc := { f := 1, ib := 0, ii := 0 } }

/-- The frame `C2machine` starts with. -/
def W2ctx : FunctionContext :=
  { allocas := [], values := [], pc := { f := 1, ib := 5, ii := 0 } }

/-- The callee pushed by the C6 witness: its entry block is a lone RET. -/
def W6callee : Function :=
  { name_ := "callee", entry_ := 0, basic_blocks_ := [(0, ⟨[⟨OP.RET, []⟩]⟩)] }

/-- The caller of the C6 witness: CALL of the function at address 2, then RET. -/
def W6caller : Function :=
  { name_ := "caller", entry_ := 0,
    basic_blocks_ := [(0, ⟨[⟨OP.CALL, [2]⟩, ⟨OP.RET, []⟩]⟩)] }

/-- The caller's frame in the C6 witness. -/
def W6ctx : FunctionContext :=
  { allocas := [], values := [(1, 5)], pc := { f := 1, ib := 0, ii := 0 } }

/-- The machine of the C6 witness. -/
def W6m : Machine :=
  { stack_ := [W6ctx], funcs := [(1, W6caller), (2, W6callee)],
    heap := { nextAddr := 4096, live := [], mem := [] }, output := [] }

/-- Witness for C1's amended theorem: a DEBUG of the unbound register 3. -/
theorem C1_amended_silent_defaults_witness :
    lookupA W9ctx.values 3 = none
    ∧ (⟨OP.DEBUG, [3]⟩ : Instruction).op = OP.DEBUG
    ∧ ∀ f m1, dispatch Wm W9ctx [] ⟨OP.DEBUG, [3]⟩ ≠ StepResult.fault f m1 :=
  ⟨rfl, rfl,
    (C1_amended_silent_defaults Wm W9ctx [] 3 ⟨OP.DEBUG, [3]⟩ rfl
      (Or.inr (Or.inr (Or.inr (Or.inr (Or.inr (Or.inr rfl))))))).2.2⟩

/-- Witness for C2's amended theorem: the fetch of `C2machine` at the absent
block id 5 is undefined behavior, not a fault. -/
theorem C2_missing_block_is_ub_witness :
    C2machine.stack_ = W2ctx :: []
    ∧ lookupA C2machine.funcs W2ctx.pc.f = some C2prog
    ∧ lookupA C2prog.basic_blocks_ W2ctx.pc.ib = none
    ∧ ∀ f m1, ExecuteInstruction C2machine ≠ StepResult.fault f m1 :=
  ⟨rfl, rfl, rfl, (C2_missing_block_is_ub C2machine W2ctx [] C2prog rfl rfl rfl).2⟩

/-- Witness for C3 at registers 1 ↦ 5 and 2 ↦ 7. -/
theorem C3_cmp_semantics_witness :
    lookupA Wctx.values 1 = some 5 ∧ lookupA Wctx.values 2 = some 7
    ∧ dispatch Wm Wctx [] ⟨OP.CMP, [0, COND.LT, 1, 2]⟩ =
      StepResult.ok
        { Wm with stack_ := [Wctx.Assign 0 (if cmpFlag 5 7 = COND.LT then 1 else 0)] } :=
  ⟨rfl, rfl, (C3_cmp_semantics Wm Wctx [] 0 COND.LT 1 2 5 7 rfl rfl).1⟩

/-- Witness for C4 at the overflowing input 2^63 - 1 plus 1, which wraps to
-2^63 instead of trapping. -/
theorem C4_add_wraps_witness :
    lookupA W4ctx.values 1 = some 9223372036854775807
    ∧ lookupA W4ctx.values 2 = some 1
    ∧ dispatch Wm W4ctx [] ⟨OP.ADD, [0, 1, 2]⟩ =
      StepResult.ok
        { Wm with stack_ := [W4ctx.Assign 0 (wrap64 (9223372036854775807 + 1))] }
    ∧ wrap64 (9223372036854775807 + 1) = -9223372036854775808 :=
  ⟨rfl, rfl, (C4_add_wraps Wm W4ctx [] 0 1 2 9223372036854775807 1 rfl rfl).1,
    by norm_num [wrap64]⟩

/-- Witness for C5: register 1 holds the non-zero value 5, so BR(1, 7, 9)
transfers to block 7 with the instruction index reset to 0. -/
theorem C5_br_semantics_witness :
    lookupA Wctx.values 1 = some 5
    ∧ dispatch Wm Wctx [] ⟨OP.BR, [1, 7, 9]⟩ =
      StepResult.ok
        { Wm with stack_ := [{ Wctx with pc := { (Wctx.pc) with ii := 0, ib := if (5 : Int) ≠ 0 then 7 else 9 } }] } :=
  ⟨rfl, C5_br_semantics Wm Wctx [] 1 7 9 5 rfl⟩

/-- Witness for C6: running CALL (to `W6callee`) then the callee's RET on
`W6m` restores the caller frame unchanged except for its advanced index. -/
theorem C6_call_ret_isolation_witness :
    W6m.stack_ = W6ctx :: []
    ∧ lookupA W6m.funcs W6ctx.pc.f = some W6caller
    ∧ (⟨OP.CALL, [2]⟩ : Instruction).get 0 ≠ 0
    ∧ ExecuteInstruction { W6m with stack_ :=
        ({ allocas := [], values := [],
           pc := { f := (⟨OP.CALL, [2]⟩ : Instruction).get 0,
                   ib := W6callee.entry, ii := 0 } } : FunctionContext)
          :: W6ctx.advance :: [] } =
      StepResult.ok { W6m with stack_ := W6ctx.advance :: [] } :=
  ⟨rfl, rfl, by decide,
    (C6_call_ret_isolation W6m W6ctx [] W6caller W6callee
      ⟨[⟨OP.CALL, [2]⟩, ⟨OP.RET, []⟩]⟩ ⟨[⟨OP.RET, []⟩]⟩
      ⟨OP.CALL, [2]⟩ ⟨OP.RET, []⟩
      rfl rfl rfl rfl rfl (by decide) rfl rfl rfl rfl).2.1⟩

/-- Witness for C7: popping `W7ctx`, which owns the block at 4096, leaves no
live block at 4096. -/
theorem C7_ret_releases_witness :
    (∀ p ∈ W7ctx.allocas, p.2.base ≠ 0)
    ∧ ∀ p ∈ W7ctx.allocas,
        p.2.base ∉ (W7m.heap.freeAll W7ctx.allocas).live.map Prod.fst :=
  ⟨by decide, (C7_ret_releases W7m W7ctx [] (by decide)).2⟩

/-- A function whose entry block holds a single instruction with the unknown
opcode 99. -/
def W8fn : Function :=
  { name_ := "f", entry_ := 0, basic_blocks_ := [(0, ⟨[⟨99, [0]⟩]⟩)] }

/-- Machine about to execute the unknown opcode of `W8fn`. -/
def W8m : Machine :=
  { stack_ := [W9ctx], funcs := [(1, W8fn)],
    heap := { nextAddr := 4096, live := [], mem := [] }, output := [] }

/-- Witness for C8: executing the unknown opcode 99 on `W8m` aborts the run
with the unsupported-opcode fault and no further output. -/
theorem C8_fault_aborts_witness :
    W8m.stack_ = W9ctx :: []
    ∧ lookupA W8m.funcs W9ctx.pc.f = some W8fn
    ∧ lookupA W8fn.basic_blocks_ W9ctx.pc.ib = some ⟨[⟨99, [0]⟩]⟩
    ∧ (⟨[⟨99, [0]⟩]⟩ : BasicBlock).body_.get? W9ctx.pc.ii = some ⟨99, [0]⟩
    ∧ 10 < (⟨99, [0]⟩ : Instruction).op
    ∧ ∃ f, ExecuteInstruction W8m =
        StepResult.fault f { W8m with stack_ := W9ctx.advance :: [] }
      ∧ (∀ n, Execute (n + 1) W8m =
          RunResult.faulted f { W8m with stack_ := W9ctx.advance :: [] })
      ∧ ({ W8m with stack_ := W9ctx.advance :: [] } : Machine).output = W8m.output :=
  ⟨rfl, rfl, rfl, rfl, by decide,
    C8_fault_aborts W8m W9ctx [] W8fn ⟨[⟨99, [0]⟩]⟩ ⟨99, [0]⟩ rfl rfl rfl rfl
      (Or.inl (by decide))⟩

/-- Witness for C9: reading the unbound register 3 yields 0 and creates the
binding. -/
theorem C9_unbound_read_defaults_witness :
    lookupA W9ctx.values 3 = none
    ∧ W9ctx.GetVal 3 = (0, { W9ctx with values := setA W9ctx.values 3 0 }) :=
  ⟨rfl, (C9_unbound_read_defaults Wm W9ctx [] 3 rfl).1⟩

/-- Witness for C10: re-ALLOCA on register 9, which already owns the block
at 4096, rebinds the register but keeps the ownership map unchanged. -/
theorem C10_alloca_existing_key_witness :
    lookupA W7ctx.allocas 9 = some { base := 4096, size := 16 }
    ∧ (∀ p ∈ W7ctx.allocas, p.2.base ≠ W7m.heap.nextAddr)
    ∧ dispatch W7m W7ctx [] ⟨OP.ALLOCA, [9, 8]⟩ =
      StepResult.ok { W7m with stack_ := W7ctx.Assign 9 W7m.heap.nextAddr :: [],
                               heap := ((W7m.heap.malloc 8).2).free W7m.heap.nextAddr } :=
  ⟨rfl, by decide,
    (C10_alloca_existing_key W7m W7ctx [] 9 8 { base := 4096, size := 16 }
      rfl (by decide)).1⟩

end k0
